import Mathlib

/-!
Verification of the core of the sawNDITracker serial driver
(`src/components/code/mtsNDISerial.cpp`) against its natural-language
specification.  The C++ code is shallowly embedded: bytes are `Nat`
(values 0..255 on the wire), buffers are `List Nat`, fixed-point wire
numbers are decoded into `ℚ`, and the stateful methods become explicit
state-passing functions.
-/

/-- ASCII codes of the characters of a string literal (the driver's buffers
are plain `char` arrays holding ASCII). -/
def strBytes (s : String) : List Nat := s.data.map Char.toNat

/-! ## CRC-16 codec (`mtsNDISerial::ComputeCRC`, lines 421-442) -/

/-- The `oddParity` table from `ComputeCRC`:
`{ 0, 1, 1, 0, 1, 0, 0, 1, 1, 0, 0, 1, 0, 1, 1, 0 }`. -/
def oddParity : List Nat := [0, 1, 1, 0, 1, 0, 0, 1, 1, 0, 0, 1, 0, 1, 1, 0]

/-- One iteration of the `while (*dataPointer)` loop body of `ComputeCRC`,
translated operation for operation from the source. -/
def crcStep (crc b : Nat) : Nat :=
  let temp := (b ^^^ (crc &&& 0xff)) &&& 0xff
  let crc1 := crc >>> 8
  let crc2 := if (oddParity.getD (temp &&& 0x0f) 0) ^^^ (oddParity.getD (temp >>> 4) 0) ≠ 0
              then crc1 ^^^ 0xc001 else crc1
  let temp6 := temp <<< 6
  let crc3 := crc2 ^^^ temp6
  let temp7 := temp6 <<< 1
  crc3 ^^^ temp7

/-- The loop of `ComputeCRC`: iterate `crcStep` over the data, stopping at the
first zero byte (the C loop reads a NUL-terminated string). -/
def computeCRCAux : Nat → List Nat → Nat
  | crc, [] => crc
  | crc, b :: bs => if b = 0 then crc else computeCRCAux (crcStep crc b) bs

/-- `mtsNDISerial::ComputeCRC` on a byte string; `crc` starts at 0. -/
def computeCRC (data : List Nat) : Nat := computeCRCAux 0 data

/-- Parity of the low four bits of a nibble, written out as the spec words it
(used only to restate the spec's per-byte rule, for comparison with the
table-driven source code). -/
def nibbleParity (n : Nat) : Nat := (n % 2 + n / 2 % 2 + n / 4 % 2 + n / 8 % 2) % 2

/-- The per-byte CRC update rule exactly as the spec states it:
`t = (b XOR (crc & 0xFF)) & 0xFF`; shift `crc` right 8 bits; if the parity of
`t`'s low nibble XOR parity of `t`'s high nibble is 1, `crc ^= 0xC001`; then
`t <<= 6; crc ^= t; t <<= 1; crc ^= t`. -/
def specCrcStep (crc b : Nat) : Nat :=
  let t := (b ^^^ (crc &&& 0xff)) &&& 0xff
  let crc1 := crc >>> 8
  let crc2 := if nibbleParity (t % 16) ^^^ nibbleParity (t / 16) = 1
              then crc1 ^^^ 0xc001 else crc1
  let t6 := t <<< 6
  let crc3 := crc2 ^^^ t6
  let t7 := t6 <<< 1
  crc3 ^^^ t7

/-- The spec's CRC, folded over the input and stopping at the first zero byte. -/
def specComputeCRCAux : Nat → List Nat → Nat
  | crc, [] => crc
  | crc, b :: bs => if b = 0 then crc else specComputeCRCAux (specCrcStep crc b) bs

/-- CRC computation following the specification's wording. -/
def specComputeCRC (data : List Nat) : Nat := specComputeCRCAux 0 data

/-! ## 4-hex-digit ASCII representation (`sprintf "%04X"`) -/

/-- ASCII code of the upper-case hex digit for `d < 16` (as `%X` prints it). -/
def hexDigitAscii (d : Nat) : Nat := if d < 10 then 48 + d else 55 + d

/-- `sprintf(buffer, "%04X", v)` for `v < 0x10000`: 4 upper-case, zero-padded,
big-endian hex digits. -/
def toHex4 (v : Nat) : List Nat :=
  [hexDigitAscii (v / 4096 % 16), hexDigitAscii (v / 256 % 16),
   hexDigitAscii (v / 16 % 16), hexDigitAscii (v % 16)]

/-- Numeric value of one ASCII hex digit (upper case, lower case or decimal),
as `sscanf %X` accepts it. -/
def hexCharVal (c : Nat) : Option Nat :=
  if 48 ≤ c ∧ c ≤ 57 then some (c - 48)
  else if 65 ≤ c ∧ c ≤ 70 then some (c - 55)
  else if 97 ≤ c ∧ c ≤ 102 then some (c - 87)
  else none

/-- Recognizer for the digits `%04X` can output: `0`-`9` and upper-case `A`-`F`. -/
def isUpperHexDigit (c : Nat) : Bool :=
  (decide (48 ≤ c) && decide (c ≤ 57)) || (decide (65 ≤ c) && decide (c ≤ 70))

/-- Value declared by a 4-character hex string (big-endian). -/
def hex4Value (cs : List Nat) : Option Nat :=
  match cs with
  | [a, b, c, d] =>
    match hexCharVal a, hexCharVal b, hexCharVal c, hexCharVal d with
    | some ha, some hb, some hc, some hd => some (((ha * 16 + hb) * 16 + hc) * 16 + hd)
    | _, _, _, _ => none
  | _ => none

/-! ## Response CRC check (`mtsNDISerial::ResponseCheckCRC`, lines 514-538)

The received buffer ends with 4 CRC hex characters and a carriage return.
`crcPointer = mSerialBufferPointer - 5` addresses the first CRC character;
the code copies the 4 CRC characters out, overwrites the first one with NUL,
recomputes the CRC over the buffer (which now reads as the payload alone,
since `ComputeCRC` stops at the first NUL), renders it with `"%04X"` and
compares the two 4-character strings with `strncmp`. -/

/-- `mtsNDISerial::ResponseCheckCRC` on the received buffer; `some payload`
models success with the buffer (as a C string) holding exactly the payload,
`none` models the CRC-mismatch failure. -/
def responseCheckCRC (buf : List Nat) : Option (List Nat) :=
  let crcPos := buf.length - 5
  let received := (buf.drop crcPos).take 4
  let mutated := buf.take crcPos ++ 0 :: buf.drop (crcPos + 1)
  let computed := toHex4 (computeCRC mutated)
  if received = computed then some (buf.take crcPos) else none

/-! ## Tool definition upload (`mtsNDISerial::LoadToolDefinitionFile`, lines 700-743) -/

/-- The chunk count computed by `LoadToolDefinitionFile`:
`definitionSize = fileSize * 2`, `paddingSize = 128 - definitionSize % 128`,
`numChunks = (definitionSize + paddingSize) / 128`.  Note that when
`definitionSize` is already a multiple of 128 the code pads by a full extra
128 characters. -/
def numChunks (fileSize : Nat) : Nat :=
  let definitionSize := fileSize * 2
  let paddingSize := 128 - definitionSize % 128
  (definitionSize + paddingSize) / 128

/-- `LoadToolDefinitionFile` reduced to its observable upload schedule: `none`
when the file is rejected for exceeding 960 bytes (no PVWR sent); otherwise
the list of the 4-hex-digit PVWR start addresses `i * 64`, one per chunk. -/
def loadToolDefinitionUpload (fileSize : Nat) : Option (List (List Nat)) :=
  if fileSize > 960 then none
  else some ((List.range (numChunks fileSize)).map (fun i => toHex4 (i * 64)))

/-! ## Beep (`mtsNDISerial::Beep`, lines 676-697) -/

/-- The command text built by `CommandAppend("BEEP "); CommandAppend(n)`. -/
def beepCmd (n : Int) : String := "BEEP " ++ toString n

/-- The do/while loop of `Beep`: one `BEEP n` is sent per iteration; the list
argument holds the successive device responses (exhaustion models a read
failure, after which the method returns).  The loop repeats while the
response starts with `'0'` (device busy). -/
def beepSends : Int → List (List Nat) → List (List Nat)
  | n, [] => [strBytes (beepCmd n)]
  | n, r :: rs => strBytes (beepCmd n) :: (if r.head? = some 48 then beepSends n rs else [])

/-- `mtsNDISerial::Beep`: the range check `numberOfBeeps < 1 || numberOfBeeps > 9`
only emits a log message (first component) and does not return; the transmitted
commands (second component) are produced unconditionally. -/
def beep (n : Int) (responses : List (List Nat)) : Bool × List (List Nat) :=
  (decide (n < 1) || decide (9 < n), beepSends n responses)

/-! ## Tracking toggle (`mtsNDISerial::ToggleTracking`, lines 1025-1053) -/

/-- The tracking-related state of the component: the `mIsTracking` flag, the
history of emitted `Tracking` events (most recent first) and the commands
written to the serial port (in order). -/
structure TrackerState where
  isTracking : Bool
  trackingEvents : List Bool
  sentCommands : List String
deriving DecidableEq, Repr

/-- `mtsNDISerial::ToggleTracking track`; `deviceOk` tells whether the
follow-up `ResponseRead("OKAY")` succeeded.  A no-change request returns
immediately; otherwise `TSTART 80` or `TSTOP ` is sent and the flag and event
are only produced on `OKAY`. -/
def toggleTracking (track deviceOk : Bool) (s : TrackerState) : TrackerState :=
  if track = s.isTracking then s
  else if track then
    if deviceOk then
      ⟨true, true :: s.trackingEvents, s.sentCommands ++ ["TSTART 80"]⟩
    else
      ⟨s.isTracking, s.trackingEvents, s.sentCommands ++ ["TSTART 80"]⟩
  else
    if deviceOk then
      ⟨false, false :: s.trackingEvents, s.sentCommands ++ ["TSTOP "]⟩
    else
      ⟨s.isTracking, s.trackingEvents, s.sentCommands ++ ["TSTOP "]⟩

/-! ## Tool registry (`mtsNDISerial::CheckTool` / `AddTool`, lines 746-803) -/

/-- The registry-relevant attributes of `mtsNDISerial::Tool` set by `AddTool`. -/
structure Tool where
  name : String
  serialNumber : String
  definition : String
deriving DecidableEq, Repr

/-- `mtsNDISerial::CheckTool`: scan the registry for a tool with the given
serial number. -/
def checkTool (tools : List Tool) (serialNumber : String) : Option Tool :=
  tools.find? (fun t => t.serialNumber == serialNumber)

/-- `mtsNDISerial::AddTool`: returns the tool (if any) and the updated
registry.  A duplicate serial number returns the existing tool unchanged; a
fresh serial number with a colliding name fails (`mTools.AddItem` refuses
duplicate keys and the freshly built tool is deleted); otherwise the new tool
is stored under its name. -/
def addTool (tools : List Tool) (name serialNumber definition : String) :
    Option Tool × List Tool :=
  match checkTool tools serialNumber with
  | some t => (some t, tools)
  | none =>
    let tool : Tool := ⟨name, serialNumber, definition⟩
    if tools.any (fun t => t.name == name) then (none, tools)
    else (some tool, tools ++ [tool])

/-! ## Fixed-point field parsing (`sscanf` numeric conversions)

The TX reply carries signed fixed-width decimal fields (`%6lf`, `%7lf`):
a sign character followed by digits, with an implied decimal point handled
by explicit divisions afterwards. -/

/-- Numeric value of one ASCII decimal digit. -/
def digitVal (c : Nat) : Option Nat :=
  if 48 ≤ c ∧ c ≤ 57 then some (c - 48) else none

/-- Accumulate a run of decimal digits; fails on a non-digit. -/
def parseDigitsAux : List Nat → Nat → Option Nat
  | [], acc => some acc
  | c :: cs, acc =>
    match digitVal c with
    | some d => parseDigitsAux cs (10 * acc + d)
    | none => none

/-- Parse a non-empty all-digit string. -/
def parseDigits : List Nat → Option Nat
  | [] => none
  | cs => parseDigitsAux cs 0

/-- Parse a `w`-character signed fixed-width decimal field (`sscanf %{w}lf` on
the sign-plus-digits numbers the device emits). -/
def parseSignedFixed (w : Nat) (cs : List Nat) : Option Int :=
  let field := cs.take w
  if field.length = w then
    match field with
    | c :: rest =>
      if c = 43 then (parseDigits rest).map (fun n => (n : Int))
      else if c = 45 then (parseDigits rest).map (fun n => -(n : Int))
      else (parseDigits field).map (fun n => (n : Int))
    | [] => none
  else none

/-- Parse `"%02X"`: two hex characters, big-endian. -/
def parseHex2 (cs : List Nat) : Option Nat :=
  match cs with
  | c1 :: c2 :: _ =>
    match hexCharVal c1, hexCharVal c2 with
    | some h, some l => some (16 * h + l)
    | _, _ => none
  | _ => none

/-! ## Pose computation for one numeric TX row (`mtsNDISerial::Track`, lines 1111-1129) -/

/-- A 3-vector over the rationals (wire fixed-point values decode exactly). -/
structure Vec3Q where
  x : ℚ
  y : ℚ
  z : ℚ
deriving DecidableEq, Repr

/-- A 3x3 matrix over the rationals. -/
structure Mat3Q where
  m00 : ℚ
  m01 : ℚ
  m02 : ℚ
  m10 : ℚ
  m11 : ℚ
  m12 : ℚ
  m20 : ℚ
  m21 : ℚ
  m22 : ℚ
deriving DecidableEq, Repr

/-- Matrix-vector product. -/
def mat3MulVec (r : Mat3Q) (v : Vec3Q) : Vec3Q :=
  ⟨r.m00 * v.x + r.m01 * v.y + r.m02 * v.z,
   r.m10 * v.x + r.m11 * v.y + r.m12 * v.z,
   r.m20 * v.x + r.m21 * v.y + r.m22 * v.z⟩

/-- Vector addition. -/
def vadd (a b : Vec3Q) : Vec3Q := ⟨a.x + b.x, a.y + b.y, a.z + b.z⟩

/-- A rigid frame: rotation plus translation (`vctFrm3`). -/
structure Frm3 where
  rot : Mat3Q
  trans : Vec3Q
deriving DecidableEq, Repr

/-- Modelled from the spec: the quaternion-to-rotation-matrix conversion
(`vctMatrixRotation3::FromRaw` of cisstVector, a collaborator library outside
this repository); the standard scalar-first `(w, x, y, z)` quaternion to
rotation matrix formula.  Claim C6 does not depend on the entries of the
resulting matrix, only on it being used for both poses. -/
def quatToRot (w x y z : ℚ) : Mat3Q :=
  ⟨1 - 2 * (y * y + z * z), 2 * (x * y - z * w), 2 * (x * z + y * w),
   2 * (x * y + z * w), 1 - 2 * (x * x + z * z), 2 * (y * z - x * w),
   2 * (x * z - y * w), 2 * (y * z + x * w), 1 - 2 * (x * x + y * y)⟩

/-- `cmn_mm`, the unit conversion constant of cisstCommon applied by
`toolPosition.Multiply(cmn_mm)`; a fixed scale shared by both poses. -/
def cmnMM : ℚ := 1

/-- Result of the numeric branch of the per-tool row parse in `Track`. -/
structure NumericRowResult where
  marker : Frm3
  tooltip : Frm3
  errorRMS : ℚ
deriving DecidableEq, Repr

/-- The numeric branch of `Track`'s per-tool row handling
(`sscanf "%6lf%6lf%6lf%6lf%7lf%7lf%7lf%6lf%*8X"` followed by the pose
computation): 4 six-char quaternion components divided by 10000, 3 seven-char
translation components divided by 100 (then scaled by `cmn_mm`), a six-char
error RMS divided by 10000 and 8 skipped port-status hex characters.  The
marker pose is the frame `(R, t)`; the tooltip pose adds `R * tooltipOffset`
to the translation. -/
def parseNumericRow (tooltipOffset : Vec3Q) (cs : List Nat) : Option NumericRowResult :=
  match parseSignedFixed 6 cs, parseSignedFixed 6 (cs.drop 6),
        parseSignedFixed 6 (cs.drop 12), parseSignedFixed 6 (cs.drop 18),
        parseSignedFixed 7 (cs.drop 24), parseSignedFixed 7 (cs.drop 31),
        parseSignedFixed 7 (cs.drop 38), parseSignedFixed 6 (cs.drop 45) with
  | some qw, some qx, some qy, some qz, some tx, some ty, some tz, some err =>
    let status := ((cs.drop 51).take 8)
    if status.length = 8 ∧ ∀ c ∈ status, (hexCharVal c).isSome then
      let rot := quatToRot ((qw : ℚ) / 10000) ((qx : ℚ) / 10000)
                           ((qy : ℚ) / 10000) ((qz : ℚ) / 10000)
      let t : Vec3Q := ⟨(tx : ℚ) / 100 * cmnMM, (ty : ℚ) / 100 * cmnMM, (tz : ℚ) / 100 * cmnMM⟩
      let marker : Frm3 := ⟨rot, t⟩
      let tooltip : Frm3 := ⟨rot, vadd t (mat3MulVec rot tooltipOffset)⟩
      some ⟨marker, tooltip, (err : ℚ) / 10000⟩
    else none
  | _, _, _, _, _, _, _, _ => none

/-! ## Stray-marker block (`mtsNDISerial::Track`, lines 1141-1180) -/

/-- The out-of-volume bit vector built by the nested loop: for each packed
byte, `std::bitset<4>` keeps its low four bits, `flip` inverts them, and
entries `4*i + j` receive flipped bit `3 - j`. -/
def oovReply : List Nat → List Bool
  | [] => []
  | b :: bs =>
    decide (b / 8 % 2 = 0) :: decide (b / 4 % 2 = 0) ::
    decide (b / 2 % 2 = 0) :: decide (b % 2 = 0) :: oovReply bs

/-- One marker position: three 7-character fixed-point fields starting at
`base`, each divided by 100 (`markerPositions[i].Divide(100.0)`; `mkRat x 100`
is the exact rational `x / 100`, see `Rat.mkRat_eq_div`). -/
def strayPositionParse (cs : List Nat) (base : Nat) : Option (ℚ × ℚ × ℚ) :=
  match parseSignedFixed 7 (cs.drop base), parseSignedFixed 7 (cs.drop (base + 7)),
        parseSignedFixed 7 (cs.drop (base + 14)) with
  | some x, some y, some z => some (mkRat x 100, mkRat y 100, mkRat z 100)
  | _, _, _ => none

/-- The row of 5 values written to `mStrayMarkers[i]` for one parsed marker. -/
def strayWriteRow (vis : Bool) (p : ℚ × ℚ × ℚ) : List ℚ :=
  [1, if vis then 1 else 0, p.1, p.2.1, p.2.2]

/-- The stray-marker block parse of `Track` (starting at the block's first
character): the 2-hex-digit marker count, `ceil(numMarkers / 4)` packed
out-of-volume bytes, then per marker `i` three 7-character coordinates at
offset `2 + oovSize + 21 * i`; the visibility of marker `i` is entry
`i + numGarbage` of the out-of-volume vector.  The result is the count and
the sequence of row writes `(i, row)` the loop performs on `mStrayMarkers`. -/
def parseStray (cs : List Nat) : Option (Nat × List (Nat × List ℚ)) :=
  match parseHex2 cs with
  | none => none
  | some numMarkers =>
    let oovSize := (numMarkers + 3) / 4
    let oovBytes := (cs.drop 2).take oovSize
    let reply := oovReply oovBytes
    let numGarbage := 4 * oovSize - numMarkers
    if oovBytes.length = oovSize
        ∧ ∀ i ∈ List.range numMarkers, (strayPositionParse cs (2 + oovSize + 21 * i)).isSome then
      some (numMarkers, (List.range numMarkers).map (fun i =>
        (i, strayWriteRow (reply.getD (i + numGarbage) false)
              ((strayPositionParse cs (2 + oovSize + 21 * i)).getD (0, 0, 0)))))
    else none

/-- One row write `mStrayMarkers[i][0..4] = row` on the 50x5 matrix (modelled
as a total function so that the write indices stay visible). -/
def writeRow (m : Nat → Nat → ℚ) (i : Nat) (row : List ℚ) : Nat → Nat → ℚ :=
  fun a b => if a = i ∧ b < 5 then row.getD b 0 else m a b

/-- `mStrayMarkers.Zeros()`. -/
def zeroMatrix : Nat → Nat → ℚ := fun _ _ => 0

/-- Apply the sequence of row writes to the zeroed matrix, in loop order. -/
def applyStrayWrites (ws : List (Nat × List ℚ)) : Nat → Nat → ℚ :=
  ws.foldl (fun m iw => writeRow m iw.1 iw.2) zeroMatrix

/-- The `mStrayMarkers` contents after `Track`'s stray-marker block. -/
def strayMatrix (cs : List Nat) : Option (Nat → Nat → ℚ) :=
  (parseStray cs).map (fun mw => applyStrayWrites mw.2)

/-- Follows the claim's wording for the visibility of stray marker `i` out of
`m`: bitwise-invert each packed out-of-volume byte, read bits 3..0 as slots
`4k + 0 .. 4k + 3`, and skip the first `4 * ceil(m / 4) - m` garbage bits. -/
def visibilityFromPacked (bytes : List Nat) (m i : Nat) : ℚ :=
  let g := 4 * ((m + 3) / 4) - m
  let s := i + g
  if (bytes.getD (s / 4) 0) / 2 ^ (3 - s % 4) % 2 = 0 then 1 else 0

/-! ## Report stray markers (`mtsNDISerial::ReportStrayMarkers`, lines 1185-1250) -/

/-- Component state for `ReportStrayMarkers`: the tracking state plus the
`mStrayMarkers` matrix. -/
structure NDIState where
  tracker : TrackerState
  strayMarkers : Nat → Nat → ℚ

/-- `mtsNDISerial::ReportStrayMarkers`: save `mIsTracking`, force tracking on,
exchange `TX 1000` (whose reply `resp` starts with a 2-hex-digit port-handle
count followed by 3 characters per handle, then the stray-marker block), and
finally restore the saved tracking state.  `ok1`/`ok2` are the `OKAY`
acknowledgements of the two `ToggleTracking` calls. -/
def reportStrayMarkers (resp : List Nat) (ok1 ok2 : Bool) (s : NDIState) : NDIState :=
  let wasTracking := s.tracker.isTracking
  let t1 := toggleTracking true ok1 s.tracker
  let t2 : TrackerState := ⟨t1.isTracking, t1.trackingEvents, t1.sentCommands ++ ["TX 1000"]⟩
  let blockStart := match parseHex2 resp with
    | some numPortHandles => 2 + 3 * numPortHandles
    | none => 2
  let matrix := match strayMatrix (resp.drop blockStart) with
    | some m => m
    | none => s.strayMarkers
  ⟨toggleTracking wasTracking ok2 t2, matrix⟩

/-! ## Concrete wire data used by the witnesses -/

/-- Spec scenario S6 shaped stray-marker block: count `"03"`, packed
out-of-volume byte `0x0E`, then three 21-character marker positions. -/
def c7Input : List Nat :=
  strBytes "03" ++ [14] ++ strBytes "+012345-000050+000000"
    ++ strBytes "+000010+000020+000030" ++ strBytes "+000040-000050+000060"

/-- A minimal stray-marker block: one marker, packed byte `0x00`, one
21-character position. -/
def c10Input : List Nat := strBytes "01" ++ [0] ++ strBytes "+000000+000000+000000"

/-- Spec scenario S5 numeric TX row: quaternion `(+10000, 0, 0, 0)`,
translation `(+010000, 0, 0)`, error `+00100`, port status `00000000`. -/
def s5Row : List Nat :=
  strBytes "+10000+00000+00000+00000+010000+000000+000000+0010000000000"

/-- The pose `Track` computes from `s5Row` with tooltip offset `(0, 0, 5)`:
identity rotation, marker at `(100, 0, 0)` mm, tooltip at `(100, 0, 5)` mm,
error RMS `0.01`. -/
def s5Result : NumericRowResult :=
  ⟨⟨⟨1, 0, 0, 0, 1, 0, 0, 0, 1⟩, ⟨100, 0, 0⟩⟩,
   ⟨⟨1, 0, 0, 0, 1, 0, 0, 0, 1⟩, ⟨100, 0, 5⟩⟩, 1 / 100⟩

/-! ## Helper lemmas: CRC codec -/

set_option maxRecDepth 4096 in
/-- The source's parity table agrees with the spec's nibble-parity rule for
every possible value of `t` (after masking, `t < 256`). -/
theorem oddParity_table_correct : ∀ t, t < 256 →
    (((oddParity.getD (t &&& 0x0f) 0) ^^^ (oddParity.getD (t >>> 4) 0) ≠ 0) ↔
      (nibbleParity (t % 16) ^^^ nibbleParity (t / 16) = 1)) := by decide

/-- The table-driven step of `ComputeCRC` is exactly the spec's update rule. -/
theorem crcStep_eq_specCrcStep (crc b : Nat) : crcStep crc b = specCrcStep crc b := by
  have ht : (b ^^^ (crc &&& 0xff)) &&& 0xff < 256 :=
    Nat.lt_succ_of_le (Nat.and_le_right)
  simp only [crcStep, specCrcStep]
  rw [if_congr (oddParity_table_correct _ ht) rfl rfl]

/-- Folding the two steps over the same data gives the same CRC. -/
theorem computeCRCAux_eq_spec (data : List Nat) :
    ∀ crc, computeCRCAux crc data = specComputeCRCAux crc data := by
  induction data with
  | nil => intro crc; rfl
  | cons b bs ih =>
    intro crc
    simp only [computeCRCAux, specComputeCRCAux, crcStep_eq_specCrcStep]
    split
    · rfl
    · exact ih _

/-- `ComputeCRC` reads a NUL-terminated string: everything at and after the
first zero byte is ignored. -/
theorem computeCRCAux_append_zero (xs : List Nat) :
    ∀ ys crc, computeCRCAux crc (xs ++ 0 :: ys) = computeCRCAux crc xs := by
  induction xs with
  | nil => intro ys crc; simp [computeCRCAux]
  | cons b bs ih =>
    intro ys crc
    simp only [List.cons_append, computeCRCAux]
    split
    · rfl
    · exact ih _ _

/-- One CRC step keeps the accumulator below `2^16`. -/
theorem crcStep_lt (crc b : Nat) (h : crc < 65536) : crcStep crc b < 65536 := by
  have h16 : (65536 : Nat) = 2 ^ 16 := by norm_num
  have htemp : (b ^^^ (crc &&& 0xff)) &&& 0xff ≤ 255 := Nat.and_le_right
  have hc1 : crc >>> 8 < 65536 := by
    rw [Nat.shiftRight_eq_div_pow]
    exact Nat.lt_of_le_of_lt (Nat.div_le_self _ _) h
  have hc2 : (if (oddParity.getD (((b ^^^ (crc &&& 0xff)) &&& 0xff) &&& 0x0f) 0) ^^^
        (oddParity.getD (((b ^^^ (crc &&& 0xff)) &&& 0xff) >>> 4) 0) ≠ 0
      then (crc >>> 8) ^^^ 0xc001 else crc >>> 8) < 65536 := by
    split
    · rw [h16]
      exact Nat.xor_lt_two_pow (h16 ▸ hc1) (by norm_num)
    · exact hc1
  have ht6 : ((b ^^^ (crc &&& 0xff)) &&& 0xff) <<< 6 < 65536 := by
    rw [Nat.shiftLeft_eq]
    calc ((b ^^^ (crc &&& 0xff)) &&& 0xff) * 2 ^ 6 ≤ 255 * 2 ^ 6 :=
          Nat.mul_le_mul_right _ htemp
    _ < 65536 := by norm_num
  have ht7 : (((b ^^^ (crc &&& 0xff)) &&& 0xff) <<< 6) <<< 1 < 65536 := by
    rw [Nat.shiftLeft_eq, Nat.shiftLeft_eq]
    calc ((b ^^^ (crc &&& 0xff)) &&& 0xff) * 2 ^ 6 * 2 ^ 1 ≤ 255 * 2 ^ 6 * 2 ^ 1 :=
          Nat.mul_le_mul_right _ (Nat.mul_le_mul_right _ htemp)
    _ < 65536 := by norm_num
  simp only [crcStep]
  rw [h16]
  exact Nat.xor_lt_two_pow (Nat.xor_lt_two_pow (h16 ▸ hc2) (h16 ▸ ht6)) (h16 ▸ ht7)

/-- The CRC accumulator stays below `2^16` over any input. -/
theorem computeCRCAux_lt (data : List Nat) :
    ∀ crc, crc < 65536 → computeCRCAux crc data < 65536 := by
  induction data with
  | nil => intro crc h; exact h
  | cons b bs ih =>
    intro crc h
    simp only [computeCRCAux]
    split
    · exact h
    · exact ih _ (crcStep_lt _ _ h)

/-- `ComputeCRC` always returns a 16-bit value, so `"%04X"` prints exactly
four characters. -/
theorem computeCRC_lt (data : List Nat) : computeCRC data < 65536 :=
  computeCRCAux_lt data 0 (by norm_num)

/-- C1: `ComputeCRC` of the payload `"OKAY"` is `0xA896`, whose 4-character
upper-case big-endian hex rendering is `"A896"`; in general `ComputeCRC`
implements the spec's per-byte update rule, and it stops at the first zero
byte. -/
theorem c1_computeCRC_spec :
    computeCRC (strBytes "OKAY") = 0xA896 ∧
    toHex4 (computeCRC (strBytes "OKAY")) = strBytes "A896" ∧
    (∀ data, computeCRC data = specComputeCRC data) ∧
    (∀ xs ys, computeCRC (xs ++ 0 :: ys) = computeCRC xs) :=
  ⟨by decide, by decide,
   fun data => computeCRCAux_eq_spec data 0,
   fun xs ys => computeCRCAux_append_zero xs ys 0⟩

/-! ## Helper lemmas: 4-hex-digit round trip -/

/-- Scanning back a digit printed by `%X` recovers its value. -/
theorem hexCharVal_hexDigitAscii : ∀ d, d < 16 → hexCharVal (hexDigitAscii d) = some d := by
  decide

/-- `hexCharVal` only returns nibble values. -/
theorem hexCharVal_lt (c k : Nat) (h : hexCharVal c = some k) : k < 16 := by
  unfold hexCharVal at h
  split_ifs at h with h1 h2 h3
  · injection h with h; omega
  · injection h with h; omega
  · injection h with h; omega

/-- On the digits `%04X` can output, `hexDigitAscii` inverts `hexCharVal`. -/
theorem hexDigitAscii_hexCharVal (c k : Nat) (hu : isUpperHexDigit c = true)
    (h : hexCharVal c = some k) : hexDigitAscii k = c ∧ k < 16 := by
  simp only [isUpperHexDigit, Bool.or_eq_true, Bool.and_eq_true, decide_eq_true_eq] at hu
  unfold hexCharVal at h
  split_ifs at h with h1 h2 h3
  · injection h with h; refine ⟨?_, by omega⟩; unfold hexDigitAscii; split_ifs <;> omega
  · injection h with h; refine ⟨?_, by omega⟩; unfold hexDigitAscii; split_ifs <;> omega
  · injection h with h; omega

/-- Reading back the 4 digits printed by `"%04X"` yields the printed value. -/
theorem hex4Value_toHex4 (v : Nat) (hv : v < 65536) : hex4Value (toHex4 v) = some v := by
  have e1 := hexCharVal_hexDigitAscii (v / 4096 % 16) (by omega)
  have e2 := hexCharVal_hexDigitAscii (v / 256 % 16) (by omega)
  have e3 := hexCharVal_hexDigitAscii (v / 16 % 16) (by omega)
  have e4 := hexCharVal_hexDigitAscii (v % 16) (by omega)
  simp only [toHex4, hex4Value, e1, e2, e3, e4, Option.some.injEq]
  omega

/-- For 4 upper-case hex digits, matching `"%04X"` output character for
character is the same as declaring the printed value. -/
theorem received_eq_iff_value (d1 d2 d3 d4 v : Nat) (hv : v < 65536)
    (h1 : isUpperHexDigit d1 = true) (h2 : isUpperHexDigit d2 = true)
    (h3 : isUpperHexDigit d3 = true) (h4 : isUpperHexDigit d4 = true) :
    [d1, d2, d3, d4] = toHex4 v ↔ hex4Value [d1, d2, d3, d4] = some v := by
  constructor
  · intro h
    rw [h]
    exact hex4Value_toHex4 v hv
  · intro h
    simp only [hex4Value] at h
    cases e1 : hexCharVal d1 with
    | none => rw [e1] at h; exact Option.noConfusion h
    | some k1 =>
    cases e2 : hexCharVal d2 with
    | none => rw [e1, e2] at h; exact Option.noConfusion h
    | some k2 =>
    cases e3 : hexCharVal d3 with
    | none => rw [e1, e2, e3] at h; exact Option.noConfusion h
    | some k3 =>
    cases e4 : hexCharVal d4 with
    | none => rw [e1, e2, e3, e4] at h; exact Option.noConfusion h
    | some k4 =>
    rw [e1, e2, e3, e4] at h
    injection h with h
    obtain ⟨g1, l1⟩ := hexDigitAscii_hexCharVal d1 k1 h1 e1
    obtain ⟨g2, l2⟩ := hexDigitAscii_hexCharVal d2 k2 h2 e2
    obtain ⟨g3, l3⟩ := hexDigitAscii_hexCharVal d3 k3 h3 e3
    obtain ⟨g4, l4⟩ := hexDigitAscii_hexCharVal d4 k4 h4 e4
    have q1 : v / 4096 % 16 = k1 := by omega
    have q2 : v / 256 % 16 = k2 := by omega
    have q3 : v / 16 % 16 = k3 := by omega
    have q4 : v % 16 = k4 := by omega
    simp only [toHex4, q1, q2, q3, q4, g1, g2, g3, g4]

/-! ## C2: response CRC validation -/

/-- C2 (amended to upper-case CRC digits): for a buffer consisting of a
NUL-free payload, 4 upper-case hex digits and a carriage return,
`ResponseCheckCRC` succeeds exactly when the declared value equals the CRC of
the payload, and on success the buffer holds exactly the payload. -/
theorem c2_responseCheckCRC_uppercase (payload : List Nat) (d1 d2 d3 d4 : Nat)
    (hnul : 0 ∉ payload)
    (h1 : isUpperHexDigit d1 = true) (h2 : isUpperHexDigit d2 = true)
    (h3 : isUpperHexDigit d3 = true) (h4 : isUpperHexDigit d4 = true) :
    responseCheckCRC (payload ++ [d1, d2, d3, d4, 13]) =
      if hex4Value [d1, d2, d3, d4] = some (computeCRC payload)
      then some payload else none := by
  have hsplit : payload ++ [d1, d2, d3, d4, 13] = (payload ++ [d1]) ++ [d2, d3, d4, 13] := by
    simp
  have hpos : (payload ++ [d1, d2, d3, d4, 13]).length - 5 = payload.length := by simp
  have htake : (payload ++ [d1, d2, d3, d4, 13]).take payload.length = payload := by
    rw [List.take_left]
  have hdrop : (payload ++ [d1, d2, d3, d4, 13]).drop payload.length = [d1, d2, d3, d4, 13] := by
    rw [List.drop_left]
  have hdrop1 : (payload ++ [d1, d2, d3, d4, 13]).drop (payload.length + 1) = [d2, d3, d4, 13] := by
    rw [hsplit]
    have : payload.length + 1 = (payload ++ [d1]).length := by simp
    rw [this, List.drop_left]
  simp only [responseCheckCRC, hpos, htake, hdrop, hdrop1]
  have hcrc : computeCRC (payload ++ 0 :: [d2, d3, d4, 13]) = computeCRC payload :=
    computeCRCAux_append_zero payload [d2, d3, d4, 13] 0
  rw [show ([d1, d2, d3, d4, 13]).take 4 = [d1, d2, d3, d4] from rfl, hcrc]
  rw [if_congr (received_eq_iff_value d1 d2 d3 d4 (computeCRC payload)
        (computeCRC_lt payload) h1 h2 h3 h4) rfl rfl]

/-- C2 counterexample to the claim as stated: `"OKAYa896\r"` ends in 4 hex
digits declaring exactly the CRC of the payload `"OKAY"` (the parser itself
accepts `'a'` as a hex digit), yet `ResponseCheckCRC` fails, because the
comparison is between character strings and `"%04X"` prints upper case. -/
theorem c2_counterexample_lowercase :
    responseCheckCRC (strBytes "OKAY" ++ [97, 56, 57, 54, 13]) = none ∧
    hex4Value [97, 56, 57, 54] = some (computeCRC (strBytes "OKAY")) ∧
    (hexCharVal 97).isSome = true := by
  decide

/-- C2 witness: the amended theorem applied to the wire line `"OKAYA896\r"`
of spec scenario S1. -/
theorem c2_witness :
    responseCheckCRC (strBytes "OKAY" ++ [65, 56, 57, 54, 13]) =
      (if hex4Value [65, 56, 57, 54] = some (computeCRC (strBytes "OKAY"))
       then some (strBytes "OKAY") else none) ∧
    responseCheckCRC (strBytes "OKAY" ++ [65, 56, 57, 54, 13]) = some (strBytes "OKAY") := by
  have h := c2_responseCheckCRC_uppercase (strBytes "OKAY") 65 56 57 54
    (by decide) (by decide) (by decide) (by decide) (by decide)
  exact ⟨h, h.trans (by decide)⟩

/-! ## C3: tool definition upload chunking -/

/-- C3 evaluated at the failing input: a tool definition file of exactly 960
bytes.  `LoadToolDefinitionFile` computes `paddingSize = 128 - (1920 % 128)
= 128` instead of 0, so it uploads 16 PVWR chunks where the spec's formula
`ceil((2 * 960) / 128)` gives 15 (the 16th chunk reads past the end of the
file).  Away from multiples of 64 bytes the two counts agree (shown at 959
bytes), and a 961-byte file is rejected with no PVWR sent. -/
theorem c3_numChunks_960 :
    numChunks 960 = 16 ∧
    (2 * 960 + 127) / 128 = 15 ∧
    loadToolDefinitionUpload 961 = none ∧
    (loadToolDefinitionUpload 960).map List.length = some 16 ∧
    numChunks 959 = 15 ∧ (2 * 959 + 127) / 128 = 15 := by
  decide

/-! ## C4: beep range check -/

/-- C4 evaluated at the failing inputs: `Beep(0)` and `Beep(10)` log the
invalid-input error (first component `true`) but, lacking a `return`, still
transmit `BEEP 0` / `BEEP 10`.  In-range calls `Beep(1)` and `Beep(9)` send
the command without the error, and a busy reply (leading `'0'`) causes a
retransmission. -/
theorem c4_beep_out_of_range_still_sends :
    beep 0 [strBytes "1"] = (true, [strBytes "BEEP 0"]) ∧
    beep 10 [strBytes "1"] = (true, [strBytes "BEEP 10"]) ∧
    beep 1 [strBytes "1"] = (false, [strBytes "BEEP 1"]) ∧
    beep 9 [strBytes "1"] = (false, [strBytes "BEEP 9"]) ∧
    beep 9 [strBytes "0", strBytes "1"] = (false, [strBytes "BEEP 9", strBytes "BEEP 9"]) := by
  decide

/-! ## C5: toggling tracking -/

/-- C5: a `ToggleTracking` request equal to the current flag does nothing and
sends nothing; on a change request acknowledged with `OKAY` the flag becomes
the request and the newest `Tracking` event carries it; without the `OKAY`
the flag and the event history are unchanged. -/
theorem c5_toggleTracking (x ok : Bool) (s : TrackerState) :
    (x = s.isTracking → toggleTracking x ok s = s) ∧
    (x ≠ s.isTracking → ok = true →
      (toggleTracking x ok s).isTracking = x ∧
      (toggleTracking x ok s).trackingEvents.head? = some x) ∧
    (x ≠ s.isTracking → ok = false →
      (toggleTracking x ok s).isTracking = s.isTracking ∧
      (toggleTracking x ok s).trackingEvents = s.trackingEvents) := by
  obtain ⟨flag, events, sent⟩ := s
  cases x <;> cases ok <;> cases flag <;>
    simp [toggleTracking]

/-- C5 witness: the three cases at concrete states. -/
theorem c5_witness :
    (toggleTracking true true ⟨true, [], []⟩ = ⟨true, [], []⟩) ∧
    ((toggleTracking true true ⟨false, [], []⟩).isTracking = true ∧
      (toggleTracking true true ⟨false, [], []⟩).trackingEvents.head? = some true) ∧
    ((toggleTracking false false ⟨true, [], []⟩).isTracking = true ∧
      (toggleTracking false false ⟨true, [], []⟩).trackingEvents = []) :=
  ⟨(c5_toggleTracking true true ⟨true, [], []⟩).1 rfl,
   (c5_toggleTracking true true ⟨false, [], []⟩).2.1 (by decide) rfl,
   (c5_toggleTracking false false ⟨true, [], []⟩).2.2 (by decide) rfl⟩

/-! ## C6: tooltip pose versus marker pose -/

/-- C6: whenever a TX row parses as numeric data, the tooltip pose carries the
same rotation as the marker pose and its translation is the marker translation
plus the marker rotation applied to the tool's tooltip offset. -/
theorem c6_tooltip_from_marker (tooltipOffset : Vec3Q) (cs : List Nat)
    (r : NumericRowResult) (h : parseNumericRow tooltipOffset cs = some r) :
    r.tooltip.rot = r.marker.rot ∧
    r.tooltip.trans = vadd r.marker.trans (mat3MulVec r.marker.rot tooltipOffset) := by
  unfold parseNumericRow at h
  repeat' split at h
  all_goals try exact Option.noConfusion h
  dsimp only [] at h
  split at h
  · injection h with h
    subst h
    exact ⟨rfl, rfl⟩
  · exact Option.noConfusion h

/-- C6 witness: spec scenario S5, tooltip offset `(0, 0, 5)`: marker at
`(100, 0, 0)` mm, tooltip at `(100, 0, 5)` mm. -/
theorem c6_witness :
    parseNumericRow ⟨0, 0, 5⟩ s5Row = some s5Result ∧
    s5Result.tooltip.rot = s5Result.marker.rot ∧
    s5Result.tooltip.trans =
      vadd s5Result.marker.trans (mat3MulVec s5Result.marker.rot ⟨0, 0, 5⟩) := by
  have h1 : parseSignedFixed 6 s5Row = some 10000 := by decide
  have h2 : parseSignedFixed 6 (s5Row.drop 6) = some 0 := by decide
  have h3 : parseSignedFixed 6 (s5Row.drop 12) = some 0 := by decide
  have h4 : parseSignedFixed 6 (s5Row.drop 18) = some 0 := by decide
  have h5 : parseSignedFixed 7 (s5Row.drop 24) = some 10000 := by decide
  have h6 : parseSignedFixed 7 (s5Row.drop 31) = some 0 := by decide
  have h7 : parseSignedFixed 7 (s5Row.drop 38) = some 0 := by decide
  have h8 : parseSignedFixed 6 (s5Row.drop 45) = some 100 := by decide
  have hp : parseNumericRow ⟨0, 0, 5⟩ s5Row = some s5Result := by
    simp only [parseNumericRow, h1, h2, h3, h4, h5, h6, h7, h8]
    rw [if_pos (by decide)]
    simp only [s5Result, quatToRot, vadd, mat3MulVec, cmnMM, Option.some.injEq,
      NumericRowResult.mk.injEq, Frm3.mk.injEq, Mat3Q.mk.injEq, Vec3Q.mk.injEq]
    norm_num
  exact ⟨hp, (c6_tooltip_from_marker ⟨0, 0, 5⟩ s5Row s5Result hp).1,
    (c6_tooltip_from_marker ⟨0, 0, 5⟩ s5Row s5Result hp).2⟩

/-! ## C8: tool registry -/

/-- C8: `AddTool` with an already-registered serial number returns the
existing tool unchanged and leaves the registry unchanged; with a fresh
serial number but a colliding name it returns nothing and leaves the registry
unchanged; otherwise it stores a new tool built from the arguments under its
name. -/
theorem c8_addTool (tools : List Tool) (name serialNumber defn : String) :
    (∀ t, checkTool tools serialNumber = some t →
      addTool tools name serialNumber defn = (some t, tools)) ∧
    (checkTool tools serialNumber = none →
      tools.any (fun t => t.name == name) = true →
      addTool tools name serialNumber defn = (none, tools)) ∧
    (checkTool tools serialNumber = none →
      tools.any (fun t => t.name == name) = false →
      addTool tools name serialNumber defn =
        (some ⟨name, serialNumber, defn⟩, tools ++ [⟨name, serialNumber, defn⟩])) := by
  refine ⟨fun t h => ?_, fun h hc => ?_, fun h hc => ?_⟩
  · simp only [addTool, h]
  · simp only [addTool, h, hc]
    rfl
  · simp only [addTool, h, hc]
    rfl

/-- C8 witness: the three cases on concrete registries. -/
theorem c8_witness :
    addTool [⟨"A", "S1", ""⟩] "B" "S1" "" = (some ⟨"A", "S1", ""⟩, [⟨"A", "S1", ""⟩]) ∧
    addTool [⟨"A", "S1", ""⟩] "A" "S2" "" = (none, [⟨"A", "S1", ""⟩]) ∧
    addTool [⟨"A", "S1", ""⟩] "B" "S2" "rom" =
      (some ⟨"B", "S2", "rom"⟩, [⟨"A", "S1", ""⟩, ⟨"B", "S2", "rom"⟩]) :=
  ⟨(c8_addTool [⟨"A", "S1", ""⟩] "B" "S1" "").1 ⟨"A", "S1", ""⟩ (by decide),
   (c8_addTool [⟨"A", "S1", ""⟩] "A" "S2" "").2.1 (by decide) (by decide),
   (c8_addTool [⟨"A", "S1", ""⟩] "B" "S2" "rom").2.2 (by decide) (by decide)⟩

/-! ## C9: ReportStrayMarkers preserves the tracking flag -/

/-- C9: whatever the tracking flag was before, `ReportStrayMarkers` with both
`ToggleTracking` exchanges acknowledged `OKAY` first forces tracking on and
finally restores the saved flag, so `mIsTracking` is unchanged. -/
theorem c9_reportStrayMarkers_preserves_tracking (resp : List Nat) (s : NDIState) :
    (reportStrayMarkers resp true true s).tracker.isTracking = s.tracker.isTracking := by
  obtain ⟨⟨flag, events, sent⟩, matrix⟩ := s
  cases flag <;> simp [reportStrayMarkers, toggleTracking]

/-! ## Helper lemmas: stray-marker matrix -/

/-- Value of the written matrix: the loop writes rows `0 .. m-1`, each filling
columns `0 .. 4`; everything else keeps the starting matrix (here: zeros). -/
theorem applyStrayWrites_range (m : Nat) (rowF : Nat → List ℚ) (a b : Nat) :
    applyStrayWrites ((List.range m).map (fun i => (i, rowF i))) a b
      = if a < m ∧ b < 5 then (rowF a).getD b 0 else 0 := by
  suffices h : ∀ M0 : Nat → Nat → ℚ,
      ((List.range m).map (fun i => (i, rowF i))).foldl (fun M iw => writeRow M iw.1 iw.2) M0 a b
        = if a < m ∧ b < 5 then (rowF a).getD b 0 else M0 a b by
    exact h zeroMatrix
  induction m with
  | zero => intro M0; simp
  | succ n ih =>
    intro M0
    rw [List.range_succ, List.map_append, List.foldl_append]
    simp only [List.map_cons, List.map_nil, List.foldl_cons, List.foldl_nil]
    show writeRow _ n (rowF n) a b = _
    simp only [writeRow]
    rw [ih M0]
    split_ifs with h1 h2 h2 h3 h3 <;>
      first
        | rfl
        | omega
        | (rw [h1.1])

/-- Entry `s` of the out-of-volume vector is the complemented bit `3 - s % 4`
of packed byte `s / 4`. -/
theorem oovReply_getD (bytes : List Nat) : ∀ s, s < 4 * bytes.length →
    (oovReply bytes).getD s false
      = decide ((bytes.getD (s / 4) 0) / 2 ^ (3 - s % 4) % 2 = 0) := by
  induction bytes with
  | nil => intro s hs; simp at hs
  | cons b bs ih =>
    intro s hs
    rcases s with _ | _ | _ | _ | k
    · rfl
    · rfl
    · rfl
    · show decide (b % 2 = 0) = decide (b / 1 % 2 = 0)
      simp only [Nat.div_one]
    · have e1 : (oovReply (b :: bs)).getD (k + 1 + 1 + 1 + 1) false
          = (oovReply bs).getD k false := rfl
      have h4 : (k + 1 + 1 + 1 + 1) / 4 = k / 4 + 1 := by omega
      have h5 : (k + 1 + 1 + 1 + 1) % 4 = k % 4 := by omega
      rw [e1, h4, h5, List.getD_cons_succ]
      refine ih k ?_
      simp only [List.length_cons] at hs
      omega

/-! ## C7: stray-marker matrix contents -/

/-- C7: after `Track` parses a stray-marker block reporting `m` markers with
`m ≤ 50`, row `i < m` of the 50x5 `mStrayMarkers` matrix holds `1.0` in
column 0, in column 1 the visibility bit described by the claim (invert each
packed byte, read bits 3..0 as slots `4k+0..4k+3`, skip the first
`4 * ceil(m / 4) - m` garbage bits), and in columns 2..4 the 7-character
fixed-point coordinates divided by 100; rows `m .. 49` are all zeros. -/
theorem c7_strayMatrix (cs : List Nat) (m : Nat)
    (hp : (parseStray cs).map Prod.fst = some m) (hm : m ≤ 50) :
    (∀ i, i < m →
      (strayMatrix cs).map (fun M => M i 0) = some 1 ∧
      (strayMatrix cs).map (fun M => M i 1)
        = some (visibilityFromPacked ((cs.drop 2).take ((m + 3) / 4)) m i) ∧
      (∀ x : Int, parseSignedFixed 7 (cs.drop (2 + (m + 3) / 4 + 21 * i)) = some x →
        (strayMatrix cs).map (fun M => M i 2) = some ((x : ℚ) / 100)) ∧
      (∀ y : Int, parseSignedFixed 7 (cs.drop (2 + (m + 3) / 4 + 21 * i + 7)) = some y →
        (strayMatrix cs).map (fun M => M i 3) = some ((y : ℚ) / 100)) ∧
      (∀ z : Int, parseSignedFixed 7 (cs.drop (2 + (m + 3) / 4 + 21 * i + 14)) = some z →
        (strayMatrix cs).map (fun M => M i 4) = some ((z : ℚ) / 100))) ∧
    (∀ i j, m ≤ i → i < 50 → j < 5 → (strayMatrix cs).map (fun M => M i j) = some 0) := by
  cases e : parseStray cs with
  | none => rw [e] at hp; exact Option.noConfusion hp
  | some mw =>
    obtain ⟨m1, ws⟩ := mw
    rw [e] at hp
    have hpm : m1 = m := by simpa using hp
    subst hpm
    have e2 := e
    unfold parseStray at e2
    cases ehex : parseHex2 cs with
    | none => rw [ehex] at e2; exact Option.noConfusion e2
    | some m0 =>
    rw [ehex] at e2
    dsimp only [] at e2
    split at e2
    case isFalse => exact Option.noConfusion e2
    case isTrue hguard =>
    injection e2 with e2
    injection e2 with em ews
    subst em
    subst ews
    have hM : ∀ a b, (strayMatrix cs).map (fun M => M a b)
        = some (if a < m0 ∧ b < 5
            then (strayWriteRow
                ((oovReply ((cs.drop 2).take ((m0 + 3) / 4))).getD
                  (a + (4 * ((m0 + 3) / 4) - m0)) false)
                ((strayPositionParse cs (2 + (m0 + 3) / 4 + 21 * a)).getD (0, 0, 0))).getD b 0
            else 0) := by
      intro a b
      unfold strayMatrix
      rw [e]
      simp only [Option.map_some']
      congr 1
      exact applyStrayWrites_range m0 _ a b
    refine ⟨fun i hi => ⟨?_, ?_, fun x hx => ?_, fun y hy => ?_, fun z hz => ?_⟩,
      fun i j hmi hi50 hj => ?_⟩
    · rw [hM i 0, if_pos ⟨hi, by omega⟩]
      rfl
    · rw [hM i 1, if_pos ⟨hi, by omega⟩]
      have hb : ((cs.drop 2).take ((m0 + 3) / 4)).length = (m0 + 3) / 4 := hguard.1
      have hlt : i + (4 * ((m0 + 3) / 4) - m0)
          < 4 * ((cs.drop 2).take ((m0 + 3) / 4)).length := by
        rw [hb]; omega
      show some (if (oovReply ((cs.drop 2).take ((m0 + 3) / 4))).getD
          (i + (4 * ((m0 + 3) / 4) - m0)) false then (1 : ℚ) else 0) = _
      rw [oovReply_getD _ _ hlt]
      simp only [visibilityFromPacked, decide_eq_true_eq]
    · have hps := hguard.2 i (List.mem_range.mpr hi)
      unfold strayPositionParse at hps
      cases ey : parseSignedFixed 7 (cs.drop (2 + (m0 + 3) / 4 + 21 * i + 7)) with
      | none => rw [hx, ey] at hps; simp at hps
      | some yv =>
      cases ez : parseSignedFixed 7 (cs.drop (2 + (m0 + 3) / 4 + 21 * i + 14)) with
      | none => rw [hx, ey, ez] at hps; simp at hps
      | some zv =>
      have hsp : strayPositionParse cs (2 + (m0 + 3) / 4 + 21 * i)
          = some (mkRat x 100, mkRat yv 100, mkRat zv 100) := by
        unfold strayPositionParse
        rw [hx, ey, ez]
      rw [hM i 2, if_pos ⟨hi, by omega⟩, hsp]
      show some (mkRat x 100) = some ((x : ℚ) / 100)
      rw [Rat.mkRat_eq_div]
      norm_num
    · have hps := hguard.2 i (List.mem_range.mpr hi)
      unfold strayPositionParse at hps
      cases ex : parseSignedFixed 7 (cs.drop (2 + (m0 + 3) / 4 + 21 * i)) with
      | none => rw [ex] at hps; simp at hps
      | some xv =>
      cases ez : parseSignedFixed 7 (cs.drop (2 + (m0 + 3) / 4 + 21 * i + 14)) with
      | none => rw [ex, hy, ez] at hps; simp at hps
      | some zv =>
      have hsp : strayPositionParse cs (2 + (m0 + 3) / 4 + 21 * i)
          = some (mkRat xv 100, mkRat y 100, mkRat zv 100) := by
        unfold strayPositionParse
        rw [ex, hy, ez]
      rw [hM i 3, if_pos ⟨hi, by omega⟩, hsp]
      show some (mkRat y 100) = some ((y : ℚ) / 100)
      rw [Rat.mkRat_eq_div]
      norm_num
    · have hps := hguard.2 i (List.mem_range.mpr hi)
      unfold strayPositionParse at hps
      cases ex : parseSignedFixed 7 (cs.drop (2 + (m0 + 3) / 4 + 21 * i)) with
      | none => rw [ex] at hps; simp at hps
      | some xv =>
      cases ey : parseSignedFixed 7 (cs.drop (2 + (m0 + 3) / 4 + 21 * i + 7)) with
      | none => rw [ex, ey] at hps; simp at hps
      | some yv =>
      have hsp : strayPositionParse cs (2 + (m0 + 3) / 4 + 21 * i)
          = some (mkRat xv 100, mkRat yv 100, mkRat z 100) := by
        unfold strayPositionParse
        rw [ex, ey, hz]
      rw [hM i 4, if_pos ⟨hi, by omega⟩, hsp]
      show some (mkRat z 100) = some ((z : ℚ) / 100)
      rw [Rat.mkRat_eq_div]
      norm_num
    · rw [hM i j, if_neg (by omega)]

/-- C7 witness: spec scenario S6 (`m = 3`, packed byte `0x0E`): visibilities
`[0, 0, 1]` land in column 1 of rows 0 and 2, row 0 holds `1.0` and
`123.45 = 12345 / 100`, and row 3 (beyond the reported count) stays zero. -/
theorem c7_witness :
    (strayMatrix c7Input).map (fun M => M 0 0) = some 1 ∧
    (strayMatrix c7Input).map (fun M => M 0 1)
      = some (visibilityFromPacked ((c7Input.drop 2).take ((3 + 3) / 4)) 3 0) ∧
    (strayMatrix c7Input).map (fun M => M 2 1)
      = some (visibilityFromPacked ((c7Input.drop 2).take ((3 + 3) / 4)) 3 2) ∧
    visibilityFromPacked ((c7Input.drop 2).take ((3 + 3) / 4)) 3 0 = 0 ∧
    visibilityFromPacked ((c7Input.drop 2).take ((3 + 3) / 4)) 3 2 = 1 ∧
    (strayMatrix c7Input).map (fun M => M 0 2) = some (((12345 : Int) : ℚ) / 100) ∧
    (strayMatrix c7Input).map (fun M => M 3 1) = some 0 := by
  have h := c7_strayMatrix c7Input 3 (by decide) (by omega)
  exact ⟨(h.1 0 (by omega)).1, (h.1 0 (by omega)).2.1, (h.1 2 (by omega)).2.1,
    by decide, by decide,
    (h.1 0 (by omega)).2.2.1 12345 (by decide),
    h.2 3 1 (by omega) (by omega) (by omega)⟩

/-! ## C10: bounds of the stray-marker row writes -/

/-- C10: the stray-marker loop writes exactly rows `0 .. m-1` for the parsed
count `m`, with no check of `m` against the 50-row matrix: every written row
index is in bounds precisely when `m ≤ 50`, while the 2-hex-digit count can
be as large as 255 (e.g. `"FF"`). -/
theorem c10_stray_write_bounds :
    (∀ cs m ws, parseStray cs = some (m, ws) →
      ws.map Prod.fst = List.range m ∧
      ((∀ i ∈ ws.map Prod.fst, i < 50) ↔ m ≤ 50)) ∧
    parseHex2 (strBytes "FF") = some 255 := by
  refine ⟨fun cs m ws e => ?_, by decide⟩
  unfold parseStray at e
  cases ehex : parseHex2 cs with
  | none => rw [ehex] at e; exact Option.noConfusion e
  | some m0 =>
  rw [ehex] at e
  dsimp only [] at e
  split at e
  case isFalse => exact Option.noConfusion e
  case isTrue hguard =>
  injection e with e
  injection e with em ews
  subst em
  subst ews
  have hfst : (List.map (fun i =>
      (i, strayWriteRow ((oovReply ((cs.drop 2).take ((m0 + 3) / 4))).getD
            (i + (4 * ((m0 + 3) / 4) - m0)) false)
          ((strayPositionParse cs (2 + (m0 + 3) / 4 + 21 * i)).getD (0, 0, 0))))
      (List.range m0)).map Prod.fst = List.range m0 := by
    rw [List.map_map]
    simp [Function.comp_def]
  refine ⟨hfst, ?_⟩
  rw [hfst]
  simp only [List.mem_range]
  constructor
  · intro h
    by_contra hmm
    exact absurd (h 50 (by omega)) (by omega)
  · intro h i hi
    omega

/-- C10 witness: a one-marker block; the single write goes to row 0 and
`1 ≤ 50`. -/
theorem c10_witness :
    ([(0, ([1, 1, 0, 0, 0] : List ℚ))].map Prod.fst = List.range 1) ∧
    ((∀ i ∈ [(0, ([1, 1, 0, 0, 0] : List ℚ))].map Prod.fst, i < 50) ↔ 1 ≤ 50) :=
  c10_stray_write_bounds.1 c10Input 1 [(0, [1, 1, 0, 0, 0])] (by decide)
